import Mathlib

/-!
# dpe-finder: registry cache, geo index and distance ranker

A shallow embedding of `designees_data.go` and `geocoding.go`.

Conventions of the embedding:

* A Go `string` is an immutable byte sequence.  It is represented by a `String`
  holding one `Char` per byte, so `len(s)` is `String.length` and `s[:n]` keeps
  the first `n` elements (`goSliceTo`).  A text of Unicode characters is held by
  a Go string as its UTF-8 encoding (`goString`); for a text of ASCII characters
  the two coincide.
* A Go `map[string]V` is represented by an association list with pairwise
  distinct keys.  The order of the list is the order in which a `range` loop
  visits the entries; Go leaves that order unspecified, so statements that must
  not depend on it are made for every list representing the same map.
* A function returning `(x, err)` returns a record with a field for each
  result; `err = none` is Go's `nil` error.  Methods with a pointer receiver
  also return the receiver as it is after the call.
* The operating system, the HTTP endpoint and the UUID generator are an
  explicit `World` that is threaded through the calls.  `World.trace` is a ghost
  record of the calls made to those collaborators.
* `float64` is an abstract type `F`: the code only stores, passes and compares
  such values.
-/

namespace DpeFinder

/-! ## Go strings and maps -/

/-- The Go slice expression `s[:n]` for `n ≤ len(s)`. -/
def goSliceTo (s : String) (n : Nat) : String :=
  String.mk (s.data.take n)

/-- The Go assignment `m[k] = v`: replaces the value of an existing key, adds
the entry otherwise. -/
def mapSet {β : Type} : List (String × β) → String → β → List (String × β)
  | [], k, v => [(k, v)]
  | (k0, v0) :: rest, k, v =>
      if k0 = k then (k, v) :: rest else (k0, v0) :: mapSet rest k v

/-- The Go lookup `v, ok := m[k]`; `none` stands for `ok == false`. -/
def mapGet {β : Type} : List (String × β) → String → Option β
  | [], _ => none
  | (k0, v0) :: rest, k => if k0 = k then some v0 else mapGet rest k

/-- The keys of a map, in enumeration order. -/
def mapKeys {β : Type} (m : List (String × β)) : List String :=
  m.map Prod.fst

/-! ## Data model (`designees_data.go`) -/

/-- The anonymous Go struct with the single field `Name`. -/
structure Named where
  Name : String
deriving DecidableEq

/-- The anonymous Go struct of the field `Designee.Address`. -/
structure DesigneeAddress where
  Address1 : String
  Address2 : String
  City : String
  State : Named
  Country : Named
  ZipCode : String
  PhoneNumber : String
  AddressFullName : String
deriving DecidableEq

structure Designee where
  DesigneeNumber : String
  PhoneNumber : String
  Address : DesigneeAddress
  FullName : String
  FunctionCodes : String
  Email : String
  CompleteAddress : String
deriving DecidableEq

structure searchResponse where
  Total : Int
  Data : List Designee
  Status : Int
  Title : String
deriving DecidableEq

structure DesigneesData where
  designees : List (String × Designee)
deriving DecidableEq

/-- The anonymous Go struct of the field `faaSearchQuery.PageModel`. -/
structure PageModel where
  First : Int
  Rows : Int
deriving DecidableEq

structure faaSearchQuery where
  PageModel : PageModel
  CountryID : Int
  DesigneeTypeID : Int
  IsLocationSearch : Bool
deriving DecidableEq

/-- Go error values.  Each constructor other than `external` is one
`fmt.Errorf` / `errors.New` site of the source; `wrap ctx e` is
`fmt.Errorf("<ctx> error: %v", e)` and `external` is an error handed back by
the operating system or a library. -/
inductive Error where
  | external
  | responseStatus (status : Int) (title : String)
  | emptyData
  | unexpectedCount (total : Int) (count : Nat)
  | originNotFound (zipCode : String)
  | vincenty (designeeID : String) (cause : Error)
  | wrap (ctx : String) (cause : Error)
deriving DecidableEq

/-! ## The environment -/

/-- Outcome of `os.Open(p)` followed by `json.NewDecoder(f).Decode(&sr)`. -/
inductive OpenResult where
  /-- The file is missing: `os.IsNotExist(err)`. -/
  | notExist
  /-- Any other error of `os.Open`. -/
  | failure
  /-- The file opens; `decoded` is what the JSON decoder makes of its
  content, `none` when decoding fails. -/
  | file (decoded : Option searchResponse)
deriving DecidableEq

/-- Ghost events: the calls a run makes to its collaborators. -/
inductive Event where
  /-- Entry into `fetchFromFAA`. -/
  | fetch (designeeTypeID : Int)
  /-- The HTTP request carrying the query `q` was submitted. -/
  | request (q : faaSearchQuery)
  /-- The response `resp` went through `ingestSearchResponse`. -/
  | ingest (resp : searchResponse) (accepted : Bool)
  /-- The temporary file was moved onto `p`. -/
  | rename (p : String)
deriving DecidableEq

structure World where
  /-- Result of `os.UserCacheDir()`, `none` when it fails. -/
  userCacheDir : Option String
  /-- The file system, as seen by `os.Open` and the JSON decoder. -/
  files : String → OpenResult
  /-- The registry: `none` when `http.DefaultClient.Do` fails, otherwise the
  decoding of the response body (`none` when the body is not valid JSON). -/
  remote : faaSearchQuery → Option (Option searchResponse)
  /-- Whether `os.CreateTemp` succeeds. -/
  createTemp : Bool
  /-- Whether `os.Rename` onto the given path succeeds. -/
  renameOk : String → Bool
  /-- The values `uuid.New().String()` returns, in order. -/
  uuid : Nat → String
  /-- How many UUIDs have been drawn so far. -/
  uuidCount : Nat
  trace : List Event

/-- Appends a ghost event. -/
def World.emit (w : World) (e : Event) : World :=
  { w with trace := w.trace ++ [e] }

/-- The results of a method of `*DesigneesData`. -/
structure Outcome (α : Type) where
  ret : α
  err : Option Error
  /-- The receiver after the call. -/
  recv : DesigneesData
  world : World

/-- The results of `NewDesigneesData`. -/
structure NewResult where
  d : Option DesigneesData
  err : Option Error
  world : World

/-! ## Registry cache (`designees_data.go`) -/

def getDataLocalStoragePath (w : World) (designeeTypeID : Int) : String × Option Error :=
  match w.userCacheDir with
  | none => ("", some (.wrap "os.UserCacheDir" .external))
  | some cacheDir =>
      (cacheDir ++ "/" ++ ("designees-" ++ toString designeeTypeID ++ ".json"), none)

/-- The loop `for _, designee := range resp.Data` of `ingestSearchResponse`. -/
def ingestLoop (w : World) (d : DesigneesData) : List Designee → DesigneesData × World
  | [] => (d, w)
  | designee :: rest =>
      ingestLoop { w with uuidCount := w.uuidCount + 1 }
        ⟨mapSet d.designees (w.uuid w.uuidCount) designee⟩ rest

def ingestSearchResponse (w : World) (d : DesigneesData) (resp : searchResponse) :
    Outcome Unit :=
  if (resp.Status ≠ 0 ∧ resp.Status ≠ 200) ∨ resp.Title.length > 0 then
    ⟨(), some (.responseStatus resp.Status resp.Title), d, w.emit (.ingest resp false)⟩
  else if resp.Data.length = 0 then
    ⟨(), some .emptyData, d, w.emit (.ingest resp false)⟩
  else if (resp.Data.length : Int) ≠ resp.Total then
    ⟨(), some (.unexpectedCount resp.Total resp.Data.length), d, w.emit (.ingest resp false)⟩
  else
    let r := ingestLoop w d resp.Data
    ⟨(), none, r.1, r.2.emit (.ingest resp true)⟩

/-- The query built at the start of `fetchFromFAA`. -/
def buildQuery (_designeeTypeID : Int) : faaSearchQuery :=
  { PageModel := { First := 0, Rows := 65536 }
    CountryID := 184
    DesigneeTypeID := 24
    IsLocationSearch := true }

/-- The method `fetchFromFAA`.  `json.Marshal` of the query and
`http.NewRequest` with a constant method and URL cannot fail and have no
branch here.  The temporary file receives what the decoder reads and is
deleted on every path that does not rename it. -/
def fetchFromFAA (w : World) (d : DesigneesData) (designeeTypeID : Int) : Outcome Unit :=
  let query := buildQuery designeeTypeID
  let w1 := (w.emit (.fetch designeeTypeID)).emit (.request query)
  match w1.remote query with
  | none => ⟨(), some (.wrap "http.DefaultClient.Do" .external), d, w1⟩
  | some body =>
    if w1.createTemp = false then
      ⟨(), some (.wrap "os.CreateTemp" .external), d, w1⟩
    else
      match body with
      | none => ⟨(), some (.wrap "json Decode" .external), d, w1⟩
      | some sr =>
        let r := ingestSearchResponse w1 d sr
        match r.err with
        | some e => ⟨(), some (.wrap "ingestSearchResponse" e), r.recv, r.world⟩
        | none =>
          match getDataLocalStoragePath r.world designeeTypeID with
          | (_, some e) => ⟨(), some (.wrap "getDataLocalStoragePath" e), r.recv, r.world⟩
          | (p, none) =>
            if r.world.renameOk p = false then
              ⟨(), some (.wrap "os.Rename" .external), r.recv, r.world⟩
            else
              ⟨(), none, r.recv,
                { r.world with
                  files := fun q => if q = p then .file (some sr) else r.world.files q
                  trace := r.world.trace ++ [.rename p] }⟩

def loadFromLocalStorage (w : World) (d : DesigneesData) (designeeTypeID : Int) :
    Outcome Bool :=
  match getDataLocalStoragePath w designeeTypeID with
  | (_, some e) => ⟨false, some (.wrap "getDataLocalStoragePath" e), d, w⟩
  | (p, none) =>
    match w.files p with
    | .notExist => ⟨false, none, d, w⟩
    | .failure => ⟨false, some (.wrap "os.Open" .external), d, w⟩
    | .file none => ⟨false, some (.wrap "json Decode" .external), d, w⟩
    | .file (some sr) =>
      let r := ingestSearchResponse w d sr
      match r.err with
      | some e => ⟨false, some (.wrap "ingestSearchResponse" e), r.recv, r.world⟩
      | none => ⟨true, none, r.recv, r.world⟩

/-- The second half of `NewDesigneesData`, from the call of
`loadFromLocalStorage` on. -/
def loadOrFetch (w : World) (d : DesigneesData) (designeeTypeID : Int) : NewResult :=
  let l := loadFromLocalStorage w d designeeTypeID
  match l.err with
  | some e => ⟨none, some (.wrap "d.loadFromLocalStorage" e), l.world⟩
  | none =>
    if l.ret = false then
      let f := fetchFromFAA l.world l.recv designeeTypeID
      match f.err with
      | some e => ⟨none, some (.wrap "d.fetchFromFAA" e), f.world⟩
      | none => ⟨some f.recv, none, f.world⟩
    else
      ⟨some l.recv, none, l.world⟩

def NewDesigneesData (w : World) (designeeTypeID : Int) (refreshCache : Bool) : NewResult :=
  let d : DesigneesData := ⟨[]⟩
  if refreshCache then
    let f := fetchFromFAA w d designeeTypeID
    match f.err with
    | some e => ⟨none, some (.wrap "d.fetchFromFAA" e), f.world⟩
    | none => loadOrFetch f.world f.recv designeeTypeID
  else
    loadOrFetch w d designeeTypeID

/-! ## Geo index and distance ranker (`geocoding.go`) -/

structure Location (F : Type) where
  Latitude : F
  Longitude : F
deriving DecidableEq

structure Geo (F : Type) where
  latlong : List (String × Location F)
deriving DecidableEq

/-- The value of the local variable `shortZipCode` in the loop body of
`NewGeo`: the key that is looked up in `zipCodes`. -/
def shortZipCode (designee : Designee) : String :=
  if designee.Address.ZipCode.length ≥ 5 then
    goSliceTo designee.Address.ZipCode 5
  else
    designee.Address.ZipCode

/-- The variables `g`, `found` and `missing` of `NewGeo`. -/
structure GeoLoop (F : Type) where
  g : Geo F
  found : Nat
  missing : Nat

/-- The loop `for designeeID, designee := range d.designees` of `NewGeo`, over
the entries in the order the loop visits them.  The package-level table
`zipCodes` is declared outside the available sources and is a parameter. -/
def newGeoLoop {F : Type} (zipCodes : String → Option (Location F)) :
    List (String × Designee) → GeoLoop F → GeoLoop F
  | [], s => s
  | (designeeID, designee) :: rest, s =>
      match zipCodes (shortZipCode designee) with
      | some loc =>
          newGeoLoop zipCodes rest ⟨⟨mapSet s.g.latlong designeeID loc⟩, s.found + 1, s.missing⟩
      | none =>
          newGeoLoop zipCodes rest ⟨s.g, s.found, s.missing + 1⟩

/-- The results of `NewGeo`, with the two counts of its closing log line. -/
structure NewGeoResult (F : Type) where
  g : Option (Geo F)
  err : Option Error
  found : Nat
  missing : Nat

def NewGeo {F : Type} (zipCodes : String → Option (Location F)) (d : DesigneesData) :
    NewGeoResult F :=
  let s := newGeoLoop zipCodes d.designees ⟨⟨[]⟩, 0, 0⟩
  ⟨some s.g, none, s.found, s.missing⟩

structure DesigneeIDWithDistance (F : Type) where
  designeeID : String
  miles : F
deriving DecidableEq

/-- The type `geodist.Coord` of the library the ranker calls. -/
structure Coord (F : Type) where
  Lat : F
  Lon : F
deriving DecidableEq

/-- The signature of `geodist.VincentyDistance`: miles, kilometres, error.
The library is a parameter of the ranker. -/
abbrev Vincenty (F : Type) := Coord F → Coord F → F × F × Option Error

/-- The distance in miles that `vincenty` reports from `originLoc` to `loc`. -/
def milesTo {F : Type} (vincenty : Vincenty F) (originLoc loc : Location F) : F :=
  (vincenty ⟨originLoc.Latitude, originLoc.Longitude⟩ ⟨loc.Latitude, loc.Longitude⟩).1

/-- The loop `for designeeID, loc := range g.latlong` of
`RankDesigneesByDistance`; `all` is the slice built so far.  A failed distance
computation leaves the function with a nil slice and the error. -/
def rankLoop {F : Type} (vincenty : Vincenty F) (originLoc : Location F) :
    List (String × Location F) → List (DesigneeIDWithDistance F) →
      List (DesigneeIDWithDistance F) × Option Error
  | [], all => (all, none)
  | (designeeID, loc) :: rest, all =>
      match vincenty ⟨originLoc.Latitude, originLoc.Longitude⟩ ⟨loc.Latitude, loc.Longitude⟩ with
      | (_, _, some e) => ([], some (.vincenty designeeID e))
      | (miles, _, none) => rankLoop vincenty originLoc rest (all ++ [⟨designeeID, miles⟩])

/-- The inner loop of the library's insertion sort: `x` moves towards the front
past every element it is `less` than.  `sortedRev` is the sorted part of the
slice, last element first. -/
def insertBack {α : Type} (less : α → α → Bool) (x : α) : List α → List α
  | [] => [x]
  | y :: sortedRev =>
      if less x y then y :: insertBack less x sortedRev else x :: y :: sortedRev

/-- The library call `sort.Slice(data, less)`.  The Go standard library is not
part of the repository; this is the insertion sort it runs on short slices.
Only two facts about it are used below: the result is a permutation of the
input, and it is ordered by `less`. -/
def sortSlice {α : Type} (less : α → α → Bool) (data : List α) : List α :=
  (data.foldl (fun sortedRev x => insertBack less x sortedRev) []).reverse

/-- The results of `RankDesigneesByDistance`. -/
structure RankResult (F : Type) where
  ranked : List (DesigneeIDWithDistance F)
  err : Option Error
  /-- The receiver after the call. -/
  recv : Geo F

/-- The method `RankDesigneesByDistance`, with the sorting routine as a
parameter. -/
def RankDesigneesByDistanceWith {F : Type} [LT F] [DecidableRel (fun a b : F => a < b)]
    (sort : (DesigneeIDWithDistance F → DesigneeIDWithDistance F → Bool) →
      List (DesigneeIDWithDistance F) → List (DesigneeIDWithDistance F))
    (zipCodes : String → Option (Location F)) (vincenty : Vincenty F)
    (g : Geo F) (zipCode : String) : RankResult F :=
  match zipCodes zipCode with
  | none => ⟨[], some (.originNotFound zipCode), g⟩
  | some originLoc =>
      match rankLoop vincenty originLoc g.latlong [] with
      | (_, some e) => ⟨[], some e, g⟩
      | (all, none) => ⟨sort (fun a b => decide (a.miles < b.miles)) all, none, g⟩

def RankDesigneesByDistance {F : Type} [LT F] [DecidableRel (fun a b : F => a < b)]
    (zipCodes : String → Option (Location F)) (vincenty : Vincenty F)
    (g : Geo F) (zipCode : String) : RankResult F :=
  RankDesigneesByDistanceWith sortSlice zipCodes vincenty g zipCode

/-- The entry that the loop of `NewGeo` stores for one record, if any. -/
def resolveEntry {F : Type} (zipCodes : String → Option (Location F))
    (e : String × Designee) : Option (String × Location F) :=
  (zipCodes (shortZipCode e.2)).map (fun loc => (e.1, loc))

/-- The UTF-8 encoding of one character, as byte values: one byte up to
U+007F, two up to U+07FF, three up to U+FFFF, four above. -/
def utf8EncodeChar (c : Char) : List Nat :=
  if c.toNat ≤ 0x7f then
    [c.toNat]
  else if c.toNat ≤ 0x7ff then
    [0xc0 + c.toNat / 64, 0x80 + c.toNat % 64]
  else if c.toNat ≤ 0xffff then
    [0xe0 + c.toNat / 4096, 0x80 + c.toNat / 64 % 64, 0x80 + c.toNat % 64]
  else
    [0xf0 + c.toNat / 262144, 0x80 + c.toNat / 4096 % 64, 0x80 + c.toNat / 64 % 64,
      0x80 + c.toNat % 64]

/-- The bytes of the UTF-8 encoding of a text. -/
def utf8Bytes (text : String) : List Nat :=
  text.data.flatMap utf8EncodeChar

/-- The Go string with the given bytes. -/
def goBytes (bytes : List Nat) : String :=
  String.mk (bytes.map Char.ofNat)

/-- The Go string that holds a text of Unicode characters: what the JSON
decoder stores in a `string` field for that text. -/
def goString (text : String) : String :=
  goBytes (utf8Bytes text)

/-- The lookup postal code in the words of the specification, on a postal code
given as a text of Unicode characters: its first 5 characters if it has 5 or
more characters, otherwise the postal code as given. -/
def specLookupCode (zip : String) : String :=
  if zip.length ≥ 5 then zip.take 5 else zip

/-- The lookup postal code counted in bytes, on a postal code given as a text
of Unicode characters: the first 5 bytes of its UTF-8 encoding if the encoding
has 5 or more bytes, otherwise the postal code as given.  The result is a Go
string. -/
def byteLookupCode (zip : String) : String :=
  if (utf8Bytes zip).length ≥ 5 then goBytes ((utf8Bytes zip).take 5) else goString zip

/-! ## Predicates and states used in the statements -/

/-- The conditions under which `ingestSearchResponse` returns before its loop. -/
def Rejected (resp : searchResponse) : Prop :=
  (resp.Status ≠ 0 ∧ resp.Status ≠ 200) ∨ resp.Title ≠ "" ∨ resp.Data = [] ∨
    resp.Total ≠ resp.Data.length

/-- No UUID still to be drawn is a key of the record map. -/
def Fresh (w : World) (d : DesigneesData) : Prop :=
  ∀ i, w.uuidCount ≤ i → w.uuid i ∉ mapKeys d.designees

/-- The world after `ingestSearchResponse` accepted `resp`. -/
def ingestedWorld (w : World) (resp : searchResponse) : World :=
  { w with uuidCount := w.uuidCount + resp.Data.length
           trace := w.trace ++ [.ingest resp true] }

/-- The world after a successful `fetchFromFAA` that ingested `sr` and moved
the temporary file onto `p`. -/
def fetchedWorld (w : World) (id : Int) (sr : searchResponse) (p : String) : World :=
  { w with
    files := fun q => if q = p then .file (some sr) else w.files q
    uuidCount := w.uuidCount + sr.Data.length
    trace := w.trace ++ [.fetch id, .request (buildQuery id), .ingest sr true, .rename p] }

/-- The run from world `w` to world `w2` recorded no rejected ingestion. -/
def Quiet (w w2 : World) : Prop :=
  ∀ sr, Event.ingest sr false ∈ w2.trace → Event.ingest sr false ∈ w.trace

/-- The distance computation from `originLoc` to the entry `e` succeeds. -/
def DistOk {F : Type} (vincenty : Vincenty F) (originLoc : Location F)
    (e : String × Location F) : Prop :=
  (vincenty ⟨originLoc.Latitude, originLoc.Longitude⟩ ⟨e.2.Latitude, e.2.Longitude⟩).2.2 = none

/-- The pair of record key and distance from `originLoc` for the entry `e`. -/
def pairOf {F : Type} (vincenty : Vincenty F) (originLoc : Location F)
    (e : String × Location F) : DesigneeIDWithDistance F :=
  ⟨e.1, milesTo vincenty originLoc e.2⟩

/-! ## Concrete inputs -/

/-- A record that carries nothing but a postal code. -/
def designeeAt (zip : String) : Designee :=
  { DesigneeNumber := "", PhoneNumber := "",
    Address := { Address1 := "", Address2 := "", City := "", State := ⟨""⟩, Country := ⟨""⟩,
                 ZipCode := zip, PhoneNumber := "", AddressFullName := "" },
    FullName := "", FunctionCodes := "", Email := "", CompleteAddress := "" }

/-- A UUID generator: the key number `n` is `n + 1` copies of the letter `u`. -/
def uuidStream (n : Nat) : String :=
  String.mk (List.replicate (n + 1) 'u')

/-- A response with one record and a matching total. -/
def oneRecord : searchResponse :=
  ⟨1, [designeeAt "94105-1234"], 200, ""⟩

/-- A response that declares two records and carries one. -/
def shortCount : searchResponse :=
  ⟨2, [designeeAt "94105-1234"], 200, ""⟩

/-- A world without snapshots in which the registry answers `resp`. -/
def remoteWorld (resp : searchResponse) : World :=
  { userCacheDir := some "/cache"
    files := fun _ => .notExist
    remote := fun _ => some (some resp)
    createTemp := true
    renameOk := fun _ => true
    uuid := uuidStream
    uuidCount := 0
    trace := [] }

/-- A world whose registry is unreachable and whose snapshot of category 24
holds `resp`. -/
def cachedWorld (resp : searchResponse) : World :=
  { userCacheDir := some "/cache"
    files := fun p => if p = "/cache/designees-24.json" then .file (some resp) else .notExist
    remote := fun _ => none
    createTemp := true
    renameOk := fun _ => true
    uuid := uuidStream
    uuidCount := 0
    trace := [] }

/-- A stand-in for the distance library on integer coordinates: the distance
is the difference of the latitudes, and the computation fails for a
destination south of the origin. -/
def gridDistance : Vincenty Int := fun a b =>
  if b.Lat < a.Lat then (-1, -1, some .external) else (b.Lat - a.Lat, 0, none)

/-- Three indexed records at 10, 5 and 20 miles from postal code 94105. -/
def threeEntries : Geo Int :=
  ⟨[("a", ⟨47, -122⟩), ("b", ⟨42, -122⟩), ("c", ⟨57, -122⟩)]⟩

/-- Two indexed records of which the second lies south of postal code 94105,
so that the stand-in distance computation fails for it. -/
def southEntries : Geo Int :=
  ⟨[("a", ⟨47, -122⟩), ("s", ⟨30, -90⟩)]⟩

/-- Two indexed records at the same distance from postal code 94105. -/
def tiedEntries : Geo Int :=
  ⟨[("a", ⟨47, -122⟩), ("b", ⟨47, -100⟩)]⟩

/-- The entries of `tiedEntries` in the other enumeration order. -/
def tiedEntriesSwapped : Geo Int :=
  ⟨[("b", ⟨47, -100⟩), ("a", ⟨47, -122⟩)]⟩

/-- A sorting routine that places equal elements the other way round. -/
def sortSliceReversed {α : Type} (less : α → α → Bool) (data : List α) : List α :=
  sortSlice less data.reverse

/-- A record set with one resolvable and one unresolvable postal code. -/
def twoRecords : DesigneesData :=
  ⟨[("k1", designeeAt "94105-1234"), ("k2", designeeAt "940")]⟩

/-- A coordinate table with the two postal codes 94105 and 10001. -/
def zipTable : String → Option (Location Int)
  | "94105" => some ⟨37, -122⟩
  | "10001" => some ⟨40, -73⟩
  | _ => none

/-! ## Maps -/

theorem mapSet_fresh {β : Type} (m : List (String × β)) (k : String) (v : β)
    (h : k ∉ mapKeys m) : mapSet m k v = m ++ [(k, v)] := by
  induction m with
  | nil => rfl
  | cons e rest ih =>
    obtain ⟨k0, v0⟩ := e
    simp only [mapKeys, List.map_cons, List.mem_cons, not_or] at h
    have hne : ¬ k0 = k := fun hk => h.1 hk.symm
    simp only [mapSet, hne, if_false, List.cons_append]
    rw [ih h.2]

theorem mapGet_eq_some_iff {β : Type} (m : List (String × β)) (h : (mapKeys m).Nodup)
    (k : String) (v : β) : mapGet m k = some v ↔ (k, v) ∈ m := by
  induction m with
  | nil => simp [mapGet]
  | cons e rest ih =>
    obtain ⟨k0, v0⟩ := e
    simp only [mapKeys, List.map_cons, List.nodup_cons] at h
    by_cases hk : k0 = k
    · subst hk
      simp only [mapGet, if_true, Option.some.injEq, List.mem_cons, Prod.mk.injEq, true_and]
      constructor
      · intro hv
        exact Or.inl hv.symm
      · rintro (hv | hmem)
        · exact hv.symm
        · exact absurd (List.mem_map_of_mem Prod.fst hmem) h.1
    · simp only [mapGet, hk, if_false, List.mem_cons, Prod.mk.injEq]
      rw [ih h.2]
      constructor
      · exact Or.inr
      · rintro (⟨hk2, _⟩ | hmem)
        · exact absurd hk2.symm hk
        · exact hmem

/-! ## Ingestion -/

theorem string_length_pos_iff (s : String) : s.length > 0 ↔ s ≠ "" := by
  obtain ⟨l⟩ := s
  cases l with
  | nil => simp [String.length]
  | cons c cs =>
    simp only [String.length, List.length_cons, gt_iff_lt, Nat.succ_pos, true_iff]
    intro h
    have := congrArg String.data h
    simp at this

theorem ingest_err_iff (w : World) (d : DesigneesData) (resp : searchResponse) :
    (ingestSearchResponse w d resp).err ≠ none ↔ Rejected resp := by
  have hT := string_length_pos_iff resp.Title
  unfold ingestSearchResponse Rejected
  split_ifs with h1 h2 h3
  · simp only [ne_eq, reduceCtorEq, not_false_eq_true, true_iff]
    rcases h1 with h | h
    · exact Or.inl h
    · exact Or.inr (Or.inl (hT.mp h))
  · simp only [ne_eq, reduceCtorEq, not_false_eq_true, true_iff]
    exact Or.inr (Or.inr (Or.inl (List.length_eq_zero.mp h2)))
  · simp only [ne_eq, reduceCtorEq, not_false_eq_true, true_iff]
    exact Or.inr (Or.inr (Or.inr (fun h => h3 h.symm)))
  · rw [not_or] at h1
    simp only [ne_eq, not_true_eq_false, false_iff, not_or]
    refine ⟨h1.1, fun h => h1.2 (hT.mpr h), fun h => h2 (by rw [h]; rfl), fun h => h3 (fun h4 => h h4.symm)⟩

theorem ingest_err_eq_none_iff (w : World) (d : DesigneesData) (resp : searchResponse) :
    (ingestSearchResponse w d resp).err = none ↔ ¬ Rejected resp := by
  rw [← ingest_err_iff w d resp, ne_eq, not_not]

theorem ingest_rejected_recv (w : World) (d : DesigneesData) (resp : searchResponse)
    (h : (ingestSearchResponse w d resp).err ≠ none) :
    (ingestSearchResponse w d resp).recv = d := by
  unfold ingestSearchResponse at h ⊢
  split_ifs at h ⊢ with h1 h2 h3
  · rfl
  · rfl
  · rfl
  · exact absurd rfl h

theorem ingestLoop_world (data : List Designee) (w : World) (d : DesigneesData) :
    (ingestLoop w d data).2 = { w with uuidCount := w.uuidCount + data.length } := by
  induction data generalizing w d with
  | nil => rfl
  | cons x rest ih =>
    simp only [ingestLoop, ih, List.length_cons]
    congr 1
    omega

theorem ingestLoop_fst_congr (data : List Designee) (w w2 : World) (d : DesigneesData)
    (h1 : w2.uuid = w.uuid) (h2 : w2.uuidCount = w.uuidCount) :
    (ingestLoop w2 d data).1 = (ingestLoop w d data).1 := by
  induction data generalizing w w2 d with
  | nil => rfl
  | cons x rest ih =>
    simp only [ingestLoop]
    rw [h1, h2]
    exact ih _ _ _ rfl rfl

theorem ingestLoop_records (data : List Designee) (w : World) (d : DesigneesData)
    (hinj : Function.Injective w.uuid) (hfresh : Fresh w d)
    (hnodup : (mapKeys d.designees).Nodup) :
    (ingestLoop w d data).1.designees.map Prod.snd = d.designees.map Prod.snd ++ data ∧
      (mapKeys (ingestLoop w d data).1.designees).Nodup ∧
      Fresh (ingestLoop w d data).2 (ingestLoop w d data).1 := by
  induction data generalizing w d with
  | nil => exact ⟨by simp [ingestLoop], hnodup, hfresh⟩
  | cons x rest ih =>
    have hnew : w.uuid w.uuidCount ∉ mapKeys d.designees := hfresh _ (Nat.le_refl _)
    have hset := mapSet_fresh d.designees (w.uuid w.uuidCount) x hnew
    have hfresh2 : Fresh { w with uuidCount := w.uuidCount + 1 }
        ⟨mapSet d.designees (w.uuid w.uuidCount) x⟩ := by
      intro i hi
      simp only [hset, mapKeys, List.map_append, List.map_cons, List.map_nil, List.mem_append,
        List.mem_singleton, not_or]
      refine ⟨hfresh i (Nat.le_of_succ_le hi), fun h => ?_⟩
      have := hinj h
      simp only at hi
      omega
    have hnodup2 : (mapKeys (mapSet d.designees (w.uuid w.uuidCount) x)).Nodup := by
      simp only [hset, mapKeys, List.map_append, List.map_cons, List.map_nil]
      refine List.Nodup.append hnodup (List.nodup_singleton _) ?_
      intro a ha hb
      rw [List.mem_singleton] at hb
      exact hnew (hb ▸ ha)
    have h := ih { w with uuidCount := w.uuidCount + 1 }
      ⟨mapSet d.designees (w.uuid w.uuidCount) x⟩ hinj hfresh2 hnodup2
    simp only [ingestLoop]
    refine ⟨?_, h.2.1, h.2.2⟩
    rw [h.1, hset]
    simp

theorem ingest_accepted (w : World) (d : DesigneesData) (resp : searchResponse)
    (h : ¬ Rejected resp) :
    ingestSearchResponse w d resp =
      ⟨(), none, (ingestLoop w d resp.Data).1, ingestedWorld w resp⟩ := by
  have hT := string_length_pos_iff resp.Title
  unfold Rejected at h
  simp only [not_or] at h
  unfold ingestSearchResponse
  rw [if_neg (by rintro (h1 | h1); exact h.1 h1; exact h.2.1 (hT.mp h1)),
    if_neg (fun h2 => h.2.2.1 (List.length_eq_zero.mp h2)),
    if_neg (fun h3 => h3 (not_not.mp h.2.2.2).symm)]
  simp only [ingestLoop_world, World.emit, ingestedWorld]

theorem ingest_rejected (w : World) (d : DesigneesData) (resp : searchResponse)
    (h : Rejected resp) :
    (ingestSearchResponse w d resp).err ≠ none ∧ (ingestSearchResponse w d resp).recv = d ∧
      (ingestSearchResponse w d resp).world = w.emit (.ingest resp false) := by
  have herr := (ingest_err_iff w d resp).mpr h
  refine ⟨herr, ingest_rejected_recv w d resp herr, ?_⟩
  unfold ingestSearchResponse at herr ⊢
  split_ifs at herr ⊢ with h1 h2 h3
  · rfl
  · rfl
  · rfl
  · exact absurd rfl herr

/-! ## Fetching and loading -/

theorem path_congr (w w2 : World) (id : Int) (h : w2.userCacheDir = w.userCacheDir) :
    getDataLocalStoragePath w2 id = getDataLocalStoragePath w id := by
  unfold getDataLocalStoragePath
  rw [h]

theorem fetch_ok_inv (w : World) (d : DesigneesData) (id : Int)
    (h : (fetchFromFAA w d id).err = none) :
    ∃ sr p, ¬ Rejected sr ∧ w.remote (buildQuery id) = some (some sr) ∧
      getDataLocalStoragePath w id = (p, none) ∧
      fetchFromFAA w d id = ⟨(), none, (ingestLoop w d sr.Data).1, fetchedWorld w id sr p⟩ := by
  unfold fetchFromFAA at h ⊢
  simp only at h ⊢
  generalize hw1 : (w.emit (.fetch id)).emit (.request (buildQuery id)) = w1 at h ⊢
  have hrem1 : w1.remote = w.remote := by rw [← hw1]; rfl
  have hren1 : w1.renameOk = w.renameOk := by rw [← hw1]; rfl
  have hdir1 : w1.userCacheDir = w.userCacheDir := by rw [← hw1]; rfl
  rw [hrem1] at h ⊢
  cases hrem : w.remote (buildQuery id) with
  | none => simp [hrem] at h
  | some body =>
    simp only [hrem] at h ⊢
    by_cases htmp : w1.createTemp = false
    · simp [htmp] at h
    · rw [if_neg htmp] at h ⊢
      cases body with
      | none => simp at h
      | some sr =>
        simp only at h ⊢
        by_cases hrej : Rejected sr
        · exfalso
          have hne := (ingest_rejected w1 d sr hrej).1
          cases he : (ingestSearchResponse w1 d sr).err with
          | none => exact hne he
          | some e => simp [he] at h
        · refine ⟨sr, ?_⟩
          have hacc := ingest_accepted w1 d sr hrej
          simp only [hacc] at h ⊢
          rw [path_congr w (ingestedWorld w1 sr) id hdir1] at h ⊢
          cases hp : getDataLocalStoragePath w id with
          | mk p e =>
            cases e with
            | some e => simp [hp] at h
            | none =>
              simp only [hp] at h ⊢
              have hren2 : (ingestedWorld w1 sr).renameOk = w.renameOk := hren1
              rw [hren2] at h ⊢
              by_cases hren : w.renameOk p = false
              · simp [hren] at h
              · refine ⟨p, hrej, trivial, rfl, ?_⟩
                rw [if_neg hren]
                subst hw1
                simp only [fetchedWorld, World.emit, ingestedWorld, List.append_assoc,
                  List.cons_append, List.nil_append, Outcome.mk.injEq, true_and, and_true]
                exact ingestLoop_fst_congr sr.Data w _ d rfl rfl

theorem load_hit (w : World) (d : DesigneesData) (id : Int) (p : String) (sr : searchResponse)
    (hpath : getDataLocalStoragePath w id = (p, none))
    (hfile : w.files p = .file (some sr)) (hvalid : ¬ Rejected sr) :
    loadFromLocalStorage w d id =
      ⟨true, none, (ingestLoop w d sr.Data).1, ingestedWorld w sr⟩ := by
  unfold loadFromLocalStorage
  simp only [hpath, hfile, ingest_accepted w d sr hvalid]

theorem load_ok_inv (w : World) (d : DesigneesData) (id : Int)
    (h : (loadFromLocalStorage w d id).err = none) :
    (∃ p, getDataLocalStoragePath w id = (p, none) ∧ w.files p = .notExist ∧
        loadFromLocalStorage w d id = ⟨false, none, d, w⟩) ∨
      (∃ p sr, getDataLocalStoragePath w id = (p, none) ∧ w.files p = .file (some sr) ∧
        ¬ Rejected sr ∧
        loadFromLocalStorage w d id =
          ⟨true, none, (ingestLoop w d sr.Data).1, ingestedWorld w sr⟩) := by
  cases hp : getDataLocalStoragePath w id with
  | mk p e =>
    cases e with
    | some e => simp [loadFromLocalStorage, hp] at h
    | none =>
      cases hf : w.files p with
      | notExist =>
        left
        exact ⟨p, rfl, hf, by simp [loadFromLocalStorage, hp, hf]⟩
      | failure => simp [loadFromLocalStorage, hp, hf] at h
      | file dec =>
        cases dec with
        | none => simp [loadFromLocalStorage, hp, hf] at h
        | some sr =>
          right
          by_cases hrej : Rejected sr
          · exfalso
            have hne := (ingest_rejected w d sr hrej).1
            cases he : (ingestSearchResponse w d sr).err with
            | none => exact hne he
            | some e => simp [loadFromLocalStorage, hp, hf, he] at h
          · exact ⟨p, sr, rfl, hf, hrej, load_hit w d id p sr hp hf hrej⟩

theorem quiet_refl (w : World) : Quiet w w := fun _ h => h

theorem quiet_trans {w w2 w3 : World} (h1 : Quiet w w2) (h2 : Quiet w2 w3) : Quiet w w3 :=
  fun sr h => h1 sr (h2 sr h)

theorem quiet_ingested (w : World) (sr : searchResponse) : Quiet w (ingestedWorld w sr) := by
  intro r h
  simpa [ingestedWorld] using h

theorem quiet_fetched (w : World) (id : Int) (sr : searchResponse) (p : String) :
    Quiet w (fetchedWorld w id sr p) := by
  intro r h
  simpa [fetchedWorld] using h

theorem fetch_ok_quiet (w : World) (d : DesigneesData) (id : Int)
    (h : (fetchFromFAA w d id).err = none) : Quiet w (fetchFromFAA w d id).world := by
  obtain ⟨sr, p, _, _, _, heq⟩ := fetch_ok_inv w d id h
  rw [heq]
  exact quiet_fetched w id sr p

theorem load_ok_quiet (w : World) (d : DesigneesData) (id : Int)
    (h : (loadFromLocalStorage w d id).err = none) :
    Quiet w (loadFromLocalStorage w d id).world := by
  rcases load_ok_inv w d id h with ⟨p, _, _, heq⟩ | ⟨p, sr, _, _, _, heq⟩
  · rw [heq]; exact quiet_refl w
  · rw [heq]; exact quiet_ingested w sr

theorem loadOrFetch_ok_quiet (w : World) (d : DesigneesData) (id : Int)
    (h : (loadOrFetch w d id).err = none) : Quiet w (loadOrFetch w d id).world := by
  unfold loadOrFetch at h ⊢
  simp only at h ⊢
  cases hl : (loadFromLocalStorage w d id).err with
  | some e => simp [hl] at h
  | none =>
    have hq := load_ok_quiet w d id hl
    simp only [hl] at h ⊢
    by_cases hret : (loadFromLocalStorage w d id).ret = false
    · rw [if_pos hret] at h ⊢
      cases hf : (fetchFromFAA (loadFromLocalStorage w d id).world
          (loadFromLocalStorage w d id).recv id).err with
      | some e => simp [hf] at h
      | none =>
        simp only [hf]
        exact quiet_trans hq (fetch_ok_quiet _ _ id hf)
    · rw [if_neg hret]
      exact hq

theorem loadOrFetch_err_nil (w : World) (d : DesigneesData) (id : Int)
    (h : (loadOrFetch w d id).err ≠ none) : (loadOrFetch w d id).d = none := by
  unfold loadOrFetch at h ⊢
  simp only at h ⊢
  cases hl : (loadFromLocalStorage w d id).err with
  | some e => simp [hl]
  | none =>
    simp only [hl] at h ⊢
    by_cases hret : (loadFromLocalStorage w d id).ret = false
    · rw [if_pos hret] at h ⊢
      cases hf : (fetchFromFAA (loadFromLocalStorage w d id).world
          (loadFromLocalStorage w d id).recv id).err with
      | some e => simp [hf]
      | none => simp [hf] at h
    · rw [if_neg hret] at h
      exact absurd rfl h

theorem new_ok_quiet (w : World) (id : Int) (refresh : Bool)
    (h : (NewDesigneesData w id refresh).err = none) :
    Quiet w (NewDesigneesData w id refresh).world := by
  unfold NewDesigneesData at h ⊢
  cases refresh with
  | false =>
    simp only [Bool.false_eq_true, if_false] at h ⊢
    exact loadOrFetch_ok_quiet w _ id h
  | true =>
    simp only [if_true] at h ⊢
    cases hf : (fetchFromFAA w ⟨[]⟩ id).err with
    | some e => simp [hf] at h
    | none =>
      simp only [hf] at h ⊢
      exact quiet_trans (fetch_ok_quiet w _ id hf) (loadOrFetch_ok_quiet _ _ id h)

theorem new_err_nil (w : World) (id : Int) (refresh : Bool)
    (h : (NewDesigneesData w id refresh).err ≠ none) :
    (NewDesigneesData w id refresh).d = none := by
  unfold NewDesigneesData at h ⊢
  cases refresh with
  | false =>
    simp only [Bool.false_eq_true, if_false] at h ⊢
    exact loadOrFetch_err_nil w _ id h
  | true =>
    simp only [if_true] at h ⊢
    cases hf : (fetchFromFAA w ⟨[]⟩ id).err with
    | some e => simp [hf]
    | none =>
      simp only [hf] at h ⊢
      exact loadOrFetch_err_nil _ _ id h

/-! ## Registry cache: the claims -/

theorem uuidStream_injective : Function.Injective uuidStream := by
  intro a b h
  have h2 := congrArg String.length h
  simpa [uuidStream, String.length] using h2

theorem new_cached (w : World) (id : Int) (p : String) (sr : searchResponse)
    (hpath : getDataLocalStoragePath w id = (p, none))
    (hfile : w.files p = .file (some sr)) (hvalid : ¬ Rejected sr) :
    NewDesigneesData w id false =
      ⟨some (ingestLoop w ⟨[]⟩ sr.Data).1, none, ingestedWorld w sr⟩ := by
  unfold NewDesigneesData loadOrFetch
  simp [load_hit w ⟨[]⟩ id p sr hpath hfile hvalid]

theorem fresh_empty (w : World) : Fresh w ⟨[]⟩ := by
  intro i _
  simp [mapKeys]

/-- C1: `ingestSearchResponse` returns an error exactly when the status code is
neither 0 nor 200, or the title is non-empty, or the record list is empty, or
the declared total differs from the number of records; otherwise it returns
no error. -/
theorem ingest_rejects_iff (w : World) (d : DesigneesData) (resp : searchResponse) :
    ((ingestSearchResponse w d resp).err ≠ none ↔
        ((resp.Status ≠ 0 ∧ resp.Status ≠ 200) ∨ resp.Title ≠ "" ∨ resp.Data = [] ∨
          resp.Total ≠ resp.Data.length)) ∧
      ((ingestSearchResponse w d resp).err = none ↔
        ¬ ((resp.Status ≠ 0 ∧ resp.Status ≠ 200) ∨ resp.Title ≠ "" ∨ resp.Data = [] ∨
          resp.Total ≠ resp.Data.length)) :=
  ⟨ingest_err_iff w d resp, ingest_err_eq_none_iff w d resp⟩

/-- Every successful forced refresh holds each record of the fetched response
twice: `fetchFromFAA` ingests the response and writes the snapshot, then
`loadFromLocalStorage` ingests that snapshot again. -/
theorem forced_refresh_doubles (w : World) (id : Int)
    (hinj : Function.Injective w.uuid)
    (h : (NewDesigneesData w id true).err = none) :
    ∃ sr d, w.remote (buildQuery id) = some (some sr) ∧ ¬ Rejected sr ∧
      (NewDesigneesData w id true).d = some d ∧
      d.designees.map Prod.snd = sr.Data ++ sr.Data ∧ (mapKeys d.designees).Nodup := by
  unfold NewDesigneesData at h ⊢
  simp only [if_true] at h ⊢
  cases hf : (fetchFromFAA w ⟨[]⟩ id).err with
  | some e => simp [hf] at h
  | none =>
    obtain ⟨sr, p, hrej, hrem, hpath, heq⟩ := fetch_ok_inv w ⟨[]⟩ id hf
    have hpath2 : getDataLocalStoragePath (fetchedWorld w id sr p) id = (p, none) := by
      rw [path_congr w (fetchedWorld w id sr p) id rfl]
      exact hpath
    have hfile2 : (fetchedWorld w id sr p).files p = .file (some sr) := by
      simp [fetchedWorld]
    have hload := load_hit (fetchedWorld w id sr p) (ingestLoop w ⟨[]⟩ sr.Data).1 id p sr
      hpath2 hfile2 hrej
    have h1 := ingestLoop_records sr.Data w ⟨[]⟩ hinj (fresh_empty w) (by simp [mapKeys])
    have hw : (ingestLoop w ⟨[]⟩ sr.Data).2 =
        { w with uuidCount := w.uuidCount + sr.Data.length } := ingestLoop_world sr.Data w ⟨[]⟩
    have hfresh2 : Fresh (fetchedWorld w id sr p) (ingestLoop w ⟨[]⟩ sr.Data).1 := by
      have := h1.2.2
      rw [hw] at this
      exact this
    have h2 := ingestLoop_records sr.Data (fetchedWorld w id sr p) (ingestLoop w ⟨[]⟩ sr.Data).1
      hinj hfresh2 h1.2.1
    refine ⟨sr, (ingestLoop (fetchedWorld w id sr p) (ingestLoop w ⟨[]⟩ sr.Data).1 sr.Data).1,
      hrem, hrej, ?_, ?_, h2.2.1⟩
    · simp [heq, loadOrFetch, hload]
    · rw [h2.1, h1.1]
      simp

/-- C2 (forced refresh): when the registry answers category 24 with one valid
record and nothing is cached, `NewDesigneesData 24 true` returns no error and
a record set of two records, although the declared total of the response is 1. -/
theorem forced_refresh_count_mismatch :
    (NewDesigneesData (remoteWorld oneRecord) 24 true).err = none ∧
      (NewDesigneesData (remoteWorld oneRecord) 24 true).d =
        some ⟨[("u", designeeAt "94105-1234"), ("uu", designeeAt "94105-1234")]⟩ ∧
      (ingestSearchResponse (remoteWorld oneRecord) ⟨[]⟩ oneRecord).err = none ∧
      oneRecord.Total = 1 := by
  decide

/-- Without a forced refresh the record set returned by `NewDesigneesData`
holds exactly the records of the one response it ingested, which is
non-empty and has the declared total. -/
theorem unforced_count (w : World) (id : Int) (hinj : Function.Injective w.uuid)
    (h : (NewDesigneesData w id false).err = none) :
    ∃ sr d, ¬ Rejected sr ∧ (NewDesigneesData w id false).d = some d ∧
      d.designees.map Prod.snd = sr.Data ∧ d.designees ≠ [] ∧
      (d.designees.length : Int) = sr.Total := by
  have key : ∀ sr, ¬ Rejected sr →
      ((ingestLoop w ⟨[]⟩ sr.Data).1.designees.map Prod.snd = sr.Data ∧
        (ingestLoop w ⟨[]⟩ sr.Data).1.designees ≠ [] ∧
        ((ingestLoop w ⟨[]⟩ sr.Data).1.designees.length : Int) = sr.Total) := by
    intro sr hrej
    have h1 := (ingestLoop_records sr.Data w ⟨[]⟩ hinj (fresh_empty w) (by simp [mapKeys])).1
    simp only [List.map_nil, List.nil_append] at h1
    unfold Rejected at hrej
    simp only [not_or, not_not] at hrej
    have hlen : (ingestLoop w ⟨[]⟩ sr.Data).1.designees.length = sr.Data.length := by
      have := congrArg List.length h1
      rwa [List.length_map] at this
    refine ⟨h1, ?_, ?_⟩
    · intro hnil
      rw [hnil] at h1
      exact hrej.2.2.1 h1.symm
    · rw [hlen]
      exact hrej.2.2.2.symm
  unfold NewDesigneesData loadOrFetch at h ⊢
  simp only [Bool.false_eq_true, if_false] at h ⊢
  cases hl : (loadFromLocalStorage w ⟨[]⟩ id).err with
  | some e => simp [hl] at h
  | none =>
    rcases load_ok_inv w ⟨[]⟩ id hl with ⟨p, _, _, heq⟩ | ⟨p, sr, _, _, hrej, heq⟩
    · rw [heq] at h ⊢
      simp only [if_true] at h ⊢
      cases hf : (fetchFromFAA w ⟨[]⟩ id).err with
      | some e => simp [hf] at h
      | none =>
        obtain ⟨sr, q, hrej, _, _, heq2⟩ := fetch_ok_inv w ⟨[]⟩ id hf
        refine ⟨sr, (ingestLoop w ⟨[]⟩ sr.Data).1, hrej, ?_, key sr hrej⟩
        simp [heq2]
    · rw [heq]
      refine ⟨sr, (ingestLoop w ⟨[]⟩ sr.Data).1, hrej, ?_, key sr hrej⟩
      simp

/-- C3: without a forced refresh, when the snapshot of the category exists and
passes ingestion, `NewDesigneesData` returns no error and a record set holding
exactly the snapshot's records under distinct keys; the only collaborator
event of the call is the ingestion of the snapshot, so `fetchFromFAA` is not
entered and no request is sent, and no file is written. -/
theorem cached_snapshot_no_fetch (w : World) (id : Int) (p : String) (sr : searchResponse)
    (hpath : getDataLocalStoragePath w id = (p, none))
    (hfile : w.files p = .file (some sr))
    (hvalid : (ingestSearchResponse w ⟨[]⟩ sr).err = none)
    (hinj : Function.Injective w.uuid) :
    (NewDesigneesData w id false).err = none ∧
      (∃ d, (NewDesigneesData w id false).d = some d ∧
        d.designees.map Prod.snd = sr.Data ∧ (mapKeys d.designees).Nodup) ∧
      (NewDesigneesData w id false).world.trace = w.trace ++ [.ingest sr true] ∧
      (∀ c, Event.fetch c ∈ (NewDesigneesData w id false).world.trace →
        Event.fetch c ∈ w.trace) ∧
      (∀ q, Event.request q ∈ (NewDesigneesData w id false).world.trace →
        Event.request q ∈ w.trace) ∧
      (NewDesigneesData w id false).world.files = w.files := by
  have hrej : ¬ Rejected sr := (ingest_err_eq_none_iff w ⟨[]⟩ sr).mp hvalid
  have heq := new_cached w id p sr hpath hfile hrej
  have h1 := ingestLoop_records sr.Data w ⟨[]⟩ hinj (fresh_empty w) (by simp [mapKeys])
  rw [heq]
  refine ⟨rfl, ⟨_, rfl, by simpa using h1.1, h1.2.1⟩, rfl, ?_, ?_, rfl⟩
  · intro c hc
    simpa [ingestedWorld] using hc
  · intro q hq
    simpa [ingestedWorld] using hq

/-- Witness of C3: the snapshot of category 24 holds one valid record and the
registry is unreachable. -/
theorem cached_snapshot_no_fetch_witness :
    getDataLocalStoragePath (cachedWorld oneRecord) 24 = ("/cache/designees-24.json", none) ∧
      (NewDesigneesData (cachedWorld oneRecord) 24 false).err = none ∧
      (∃ d, (NewDesigneesData (cachedWorld oneRecord) 24 false).d = some d ∧
        d.designees.map Prod.snd = oneRecord.Data ∧ (mapKeys d.designees).Nodup) ∧
      (NewDesigneesData (cachedWorld oneRecord) 24 false).world.trace =
        (cachedWorld oneRecord).trace ++ [.ingest oneRecord true] ∧
      (∀ c, Event.fetch c ∈ (NewDesigneesData (cachedWorld oneRecord) 24 false).world.trace →
        Event.fetch c ∈ (cachedWorld oneRecord).trace) ∧
      (∀ q, Event.request q ∈ (NewDesigneesData (cachedWorld oneRecord) 24 false).world.trace →
        Event.request q ∈ (cachedWorld oneRecord).trace) ∧
      (NewDesigneesData (cachedWorld oneRecord) 24 false).world.files =
        (cachedWorld oneRecord).files :=
  ⟨by decide,
    cached_snapshot_no_fetch (cachedWorld oneRecord) 24 "/cache/designees-24.json" oneRecord
      (by decide) (by decide) (by decide) uuidStream_injective⟩

/-- C8: a response that `ingestSearchResponse` rejects, in particular one whose
record count differs from its declared total, leaves the record map as it
was; and a call of `NewDesigneesData` during which an ingestion rejects a
response returns an error and a nil record set. -/
theorem rejected_response_invisible (w : World) (d : DesigneesData) (resp : searchResponse)
    (id : Int) (refresh : Bool) :
    ((ingestSearchResponse w d resp).err ≠ none → (ingestSearchResponse w d resp).recv = d) ∧
      (resp.Total ≠ resp.Data.length →
        (ingestSearchResponse w d resp).err ≠ none ∧ (ingestSearchResponse w d resp).recv = d) ∧
      (Event.ingest resp false ∈ (NewDesigneesData w id refresh).world.trace →
        Event.ingest resp false ∉ w.trace →
        (NewDesigneesData w id refresh).d = none ∧ (NewDesigneesData w id refresh).err ≠ none) := by
  refine ⟨ingest_rejected_recv w d resp, fun hne => ?_, fun hin hnot => ?_⟩
  · have hrej : Rejected resp := Or.inr (Or.inr (Or.inr hne))
    exact ⟨(ingest_rejected w d resp hrej).1, (ingest_rejected w d resp hrej).2.1⟩
  · have herr : (NewDesigneesData w id refresh).err ≠ none := by
      intro h
      exact hnot (new_ok_quiet w id refresh h resp hin)
    exact ⟨new_err_nil w id refresh herr, herr⟩

/-- Witness of C8: the response declaring two records and carrying one, as the
answer of the registry to a forced refresh. -/
theorem rejected_response_invisible_witness :
    (ingestSearchResponse (remoteWorld shortCount) ⟨[]⟩ shortCount).recv = ⟨[]⟩ ∧
      ((ingestSearchResponse (remoteWorld shortCount) ⟨[]⟩ shortCount).err ≠ none ∧
        (ingestSearchResponse (remoteWorld shortCount) ⟨[]⟩ shortCount).recv = ⟨[]⟩) ∧
      ((NewDesigneesData (remoteWorld shortCount) 24 true).d = none ∧
        (NewDesigneesData (remoteWorld shortCount) 24 true).err ≠ none) :=
  ⟨(rejected_response_invisible (remoteWorld shortCount) ⟨[]⟩ shortCount 24 true).1 (by decide),
    (rejected_response_invisible (remoteWorld shortCount) ⟨[]⟩ shortCount 24 true).2.1 (by decide),
    (rejected_response_invisible (remoteWorld shortCount) ⟨[]⟩ shortCount 24 true).2.2
      (by decide) (by decide)⟩

theorem ingest_trace (w : World) (d : DesigneesData) (resp : searchResponse) :
    ∃ e, (ingestSearchResponse w d resp).world.trace = w.trace ++ [e] := by
  by_cases hrej : Rejected resp
  · exact ⟨_, by rw [(ingest_rejected w d resp hrej).2.2]; rfl⟩
  · exact ⟨_, by rw [ingest_accepted w d resp hrej]; rfl⟩

theorem fetch_trace (w : World) (d : DesigneesData) (id : Int) :
    ∃ rest, (fetchFromFAA w d id).world.trace =
      w.trace ++ [.fetch id, .request (buildQuery id)] ++ rest := by
  unfold fetchFromFAA
  simp only
  generalize hw1 : (w.emit (.fetch id)).emit (.request (buildQuery id)) = w1
  have ht : w1.trace = w.trace ++ [.fetch id, .request (buildQuery id)] := by
    rw [← hw1]; simp [World.emit]
  rw [← ht]
  cases w1.remote (buildQuery id) with
  | none => exact ⟨[], by simp⟩
  | some body =>
    simp only
    split_ifs with htmp
    · exact ⟨[], by simp⟩
    · cases body with
      | none => exact ⟨[], by simp⟩
      | some sr =>
        simp only
        obtain ⟨e, he⟩ := ingest_trace w1 d sr
        split
        · exact ⟨[e], he⟩
        · split
          · exact ⟨[e], he⟩
          · rename_i q _
            split_ifs
            · exact ⟨[e], he⟩
            · exact ⟨[e, .rename q], by simp [he]⟩

/-- C9 (category 25): whatever the world, the first two events of
`fetchFromFAA` for category 25 are its entry and the submission of a request
that asks for designee type 24, not 25; the offset of the request is 0 and
its page size 65536. -/
theorem fetch_query_fixed_category (w : World) (d : DesigneesData) :
    (∃ rest, (fetchFromFAA w d 25).world.trace =
        w.trace ++ [.fetch 25, .request (buildQuery 25)] ++ rest) ∧
      (buildQuery 25).DesigneeTypeID = 24 ∧ (buildQuery 25).DesigneeTypeID ≠ 25 ∧
      (buildQuery 25).PageModel.First = 0 ∧ (buildQuery 25).PageModel.Rows = 65536 :=
  ⟨fetch_trace w d 25, rfl, by decide, rfl, rfl⟩

/-! ## Geo index -/

section GeoIndex

variable {F : Type}

theorem keys_filterMap_sublist (zipCodes : String → Option (Location F))
    (entries : List (String × Designee)) :
    (mapKeys (entries.filterMap (resolveEntry zipCodes))).Sublist (mapKeys entries) := by
  induction entries with
  | nil => exact List.Sublist.refl _
  | cons e rest ih =>
    obtain ⟨k, r⟩ := e
    cases hz : zipCodes (shortZipCode r) with
    | none =>
      have : resolveEntry zipCodes (k, r) = none := by simp [resolveEntry, hz]
      simp only [List.filterMap_cons, this, mapKeys, List.map_cons]
      exact List.Sublist.cons _ ih
    | some loc =>
      have : resolveEntry zipCodes (k, r) = some (k, loc) := by simp [resolveEntry, hz]
      simp only [List.filterMap_cons, this, mapKeys, List.map_cons]
      exact List.Sublist.cons₂ _ ih

theorem length_filterMap_resolve (zipCodes : String → Option (Location F))
    (entries : List (String × Designee)) :
    (entries.filterMap (resolveEntry zipCodes)).length =
      entries.countP (fun e => (zipCodes (shortZipCode e.2)).isSome) := by
  induction entries with
  | nil => rfl
  | cons e rest ih =>
    obtain ⟨k, r⟩ := e
    cases hz : zipCodes (shortZipCode r) with
    | none =>
      have : resolveEntry zipCodes (k, r) = none := by simp [resolveEntry, hz]
      simp [List.filterMap_cons, this, List.countP_cons, hz, ih]
    | some loc =>
      have : resolveEntry zipCodes (k, r) = some (k, loc) := by simp [resolveEntry, hz]
      simp [List.filterMap_cons, this, List.countP_cons, hz, ih]

theorem newGeoLoop_latlong (zipCodes : String → Option (Location F))
    (entries : List (String × Designee)) (s : GeoLoop F)
    (hnodup : (mapKeys entries).Nodup)
    (hdisj : ∀ k ∈ mapKeys entries, k ∉ mapKeys s.g.latlong) :
    (newGeoLoop zipCodes entries s).g.latlong =
      s.g.latlong ++ entries.filterMap (resolveEntry zipCodes) := by
  induction entries generalizing s with
  | nil => simp [newGeoLoop]
  | cons e rest ih =>
    obtain ⟨k, r⟩ := e
    simp only [mapKeys, List.map_cons, List.nodup_cons] at hnodup
    have hrest : ∀ k2 ∈ mapKeys rest, k2 ∉ mapKeys s.g.latlong := fun k2 hk2 =>
      hdisj k2 (by simp only [mapKeys, List.map_cons]; exact List.mem_cons_of_mem _ hk2)
    cases hz : zipCodes (shortZipCode r) with
    | none =>
      have hres : resolveEntry zipCodes (k, r) = none := by simp [resolveEntry, hz]
      simp only [newGeoLoop, hz, List.filterMap_cons, hres]
      exact ih _ hnodup.2 hrest
    | some loc =>
      have hres : resolveEntry zipCodes (k, r) = some (k, loc) := by simp [resolveEntry, hz]
      have hk : k ∉ mapKeys s.g.latlong :=
        hdisj k (by simp [mapKeys])
      simp only [newGeoLoop, hz, List.filterMap_cons, hres]
      rw [ih _ hnodup.2]
      · simp only [mapSet_fresh _ k loc hk, List.append_assoc, List.singleton_append]
      · intro k2 hk2
        simp only [mapSet_fresh _ k loc hk, mapKeys, List.map_append, List.map_cons,
          List.map_nil, List.mem_append, List.mem_singleton, not_or]
        refine ⟨hrest k2 hk2, fun h => ?_⟩
        exact hnodup.1 (h ▸ hk2)

theorem mem_filterMap_resolve (zipCodes : String → Option (Location F))
    (entries : List (String × Designee)) (k : String) (loc : Location F) :
    (k, loc) ∈ entries.filterMap (resolveEntry zipCodes) ↔
      ∃ designee, (k, designee) ∈ entries ∧ zipCodes (shortZipCode designee) = some loc := by
  simp only [List.mem_filterMap, resolveEntry, Option.map_eq_some', Prod.mk.injEq, Prod.exists]
  constructor
  · rintro ⟨k2, r, hmem, loc2, hz, hk, hl⟩
    subst hk hl
    exact ⟨r, hmem, hz⟩
  · rintro ⟨r, hmem, hz⟩
    exact ⟨k, r, hmem, loc, hz, rfl, rfl⟩

/-- C5: for a record set with distinct keys and any coordinate table, `NewGeo`
returns no error and an index in which key `k` has the value `loc` exactly
when `k` is a key of the record set whose lookup postal code the table maps
to `loc`; the index has distinct keys and as many entries as the record set
has records with a resolvable lookup code. -/
theorem newGeo_index (zipCodes : String → Option (Location F)) (d : DesigneesData)
    (hnodup : (mapKeys d.designees).Nodup) :
    (NewGeo zipCodes d).err = none ∧
      ∃ g, (NewGeo zipCodes d).g = some g ∧
        (∀ k loc, mapGet g.latlong k = some loc ↔
          ∃ designee, mapGet d.designees k = some designee ∧
            zipCodes (shortZipCode designee) = some loc) ∧
        (mapKeys g.latlong).Nodup ∧
        g.latlong.length =
          d.designees.countP (fun e => (zipCodes (shortZipCode e.2)).isSome) := by
  have hl := newGeoLoop_latlong zipCodes d.designees ⟨⟨[]⟩, 0, 0⟩ hnodup
    (by intro k _; simp [mapKeys])
  simp only [List.nil_append] at hl
  have hnd : (mapKeys (d.designees.filterMap (resolveEntry zipCodes))).Nodup :=
    (keys_filterMap_sublist zipCodes d.designees).nodup hnodup
  refine ⟨rfl, _, rfl, ?_, ?_, ?_⟩
  · intro k loc
    rw [hl, mapGet_eq_some_iff _ hnd, mem_filterMap_resolve]
    constructor
    · rintro ⟨r, hmem, hz⟩
      exact ⟨r, (mapGet_eq_some_iff _ hnodup k r).mpr hmem, hz⟩
    · rintro ⟨r, hget, hz⟩
      exact ⟨r, (mapGet_eq_some_iff _ hnodup k r).mp hget, hz⟩
  · rw [hl]; exact hnd
  · rw [hl]; exact length_filterMap_resolve zipCodes d.designees

/-- Witness of C5: of two records, one with postal code 94105-1234 and one
with postal code 940, only the first is indexed. -/
theorem newGeo_index_witness :
    (NewGeo zipTable twoRecords).g = some ⟨[("k1", ⟨37, -122⟩)]⟩ ∧
      ((NewGeo zipTable twoRecords).err = none ∧
        ∃ g, (NewGeo zipTable twoRecords).g = some g ∧
          (∀ k loc, mapGet g.latlong k = some loc ↔
            ∃ designee, mapGet twoRecords.designees k = some designee ∧
              zipTable (shortZipCode designee) = some loc) ∧
          (mapKeys g.latlong).Nodup ∧
          g.latlong.length =
            twoRecords.designees.countP (fun e => (zipTable (shortZipCode e.2)).isSome)) :=
  ⟨by decide, newGeo_index zipTable twoRecords (by decide)⟩

theorem goBytes_ascii (l : List Char) (h : ∀ c ∈ l, c.toNat < 128) :
    (l.flatMap utf8EncodeChar).map Char.ofNat = l := by
  induction l with
  | nil => rfl
  | cons c rest ih =>
    have hc : c.toNat ≤ 0x7f := Nat.le_of_lt_succ (h c (List.mem_cons_self _ _))
    have hrest := ih (fun c2 hc2 => h c2 (List.mem_cons_of_mem _ hc2))
    simp only [List.flatMap_cons, List.map_append, hrest, utf8EncodeChar, if_pos hc,
      List.map_cons, List.map_nil, Char.ofNat_toNat, List.singleton_append]

theorem goString_ascii (text : String) (h : ∀ c ∈ text.data, c.toNat < 128) :
    goString text = text := by
  unfold goString goBytes utf8Bytes
  rw [goBytes_ascii text.data h]

theorem shortZipCode_goString (designee : Designee) (text : String)
    (hzip : designee.Address.ZipCode = goString text) :
    shortZipCode designee = byteLookupCode text := by
  have hlen : (goString text).length = (utf8Bytes text).length := by
    simp [goString, goBytes, String.length]
  unfold shortZipCode byteLookupCode
  rw [hzip, hlen]
  split_ifs
  · simp [goSliceTo, goString, goBytes, List.map_take]
  · rfl

theorem shortZipCode_ascii (designee : Designee) (text : String)
    (hzip : designee.Address.ZipCode = goString text)
    (hascii : ∀ c ∈ text.data, c.toNat < 128) :
    shortZipCode designee = goString (specLookupCode text) := by
  have htake : ∀ c ∈ (specLookupCode text).data, c.toNat < 128 := by
    intro c hc
    unfold specLookupCode at hc
    split_ifs at hc
    · rw [String.take_eq] at hc
      exact hascii c (List.mem_of_mem_take hc)
    · exact hascii c hc
  rw [goString_ascii _ htake]
  unfold shortZipCode specLookupCode goSliceTo
  rw [hzip, goString_ascii text hascii, String.take_eq]

theorem newGeo_single (zipCodes : String → Option (Location F)) (id : String)
    (designee : Designee) :
    (NewGeo zipCodes ⟨[(id, designee)]⟩).g.map (fun g => mapGet g.latlong id) =
      some (zipCodes (shortZipCode designee)) := by
  cases hz : zipCodes (shortZipCode designee) with
  | none => simp [NewGeo, newGeoLoop, hz, mapGet]
  | some loc => simp [NewGeo, newGeoLoop, hz, mapGet, mapSet]

/-- C6 as stated fails: the postal code of the three characters é, é, é has
fewer than 5 characters, so the stated lookup code is the postal code
unchanged, but its Go string has 6 bytes and `NewGeo` looks up the first 5 of
them; the postal code é4105 has 5 characters and 6 bytes, the stated lookup
code is the whole postal code and `NewGeo` looks up the bytes of é410. -/
theorem lookup_code_characters_counterexample :
    "ééé".length = 3 ∧ specLookupCode "ééé" = "ééé" ∧
      utf8Bytes "ééé" = [195, 169, 195, 169, 195, 169] ∧
      shortZipCode (designeeAt (goString "ééé")) = goBytes [195, 169, 195, 169, 195] ∧
      shortZipCode (designeeAt (goString "ééé")) ≠ goString (specLookupCode "ééé") ∧
      "é4105".length = 5 ∧ specLookupCode "é4105" = "é4105" ∧
      shortZipCode (designeeAt (goString "é4105")) = goString "é410" ∧
      shortZipCode (designeeAt (goString "é4105")) ≠ goString (specLookupCode "é4105") := by
  decide

/-- C6 (amended): for a record whose postal code is a given text, the key that
`NewGeo` looks up is the first 5 bytes of the UTF-8 encoding of the postal
code when the encoding has 5 or more bytes, and the postal code unchanged
otherwise; the index built from that record alone holds, under the record's
key, what the table has for that code; and when the postal code consists of
ASCII characters the key is its first 5 characters if it has 5 or more
characters, and the postal code unchanged otherwise. -/
theorem lookup_code_bytes (zipCodes : String → Option (Location F)) (id : String)
    (designee : Designee) (text : String)
    (hzip : designee.Address.ZipCode = goString text) :
    shortZipCode designee = byteLookupCode text ∧
      (NewGeo zipCodes ⟨[(id, designee)]⟩).g.map (fun g => mapGet g.latlong id) =
        some (zipCodes (byteLookupCode text)) ∧
      ((∀ c ∈ text.data, c.toNat < 128) →
        shortZipCode designee = goString (specLookupCode text) ∧
        goString (specLookupCode text) = specLookupCode text) := by
  refine ⟨shortZipCode_goString designee text hzip, ?_, fun hascii => ?_⟩
  · rw [← shortZipCode_goString designee text hzip]
    exact newGeo_single zipCodes id designee
  · refine ⟨shortZipCode_ascii designee text hzip hascii, goString_ascii _ ?_⟩
    intro c hc
    unfold specLookupCode at hc
    split_ifs at hc
    · rw [String.take_eq] at hc
      exact hascii c (List.mem_of_mem_take hc)
    · exact hascii c hc

/-- Witness of C6 (amended): the postal code 94105-1234 is looked up as 94105
and the postal code 940 as 940. -/
theorem lookup_code_bytes_witness :
    (shortZipCode (designeeAt "94105-1234") = "94105" ∧
        shortZipCode (designeeAt "940") = "940") ∧
      (shortZipCode (designeeAt "94105-1234") = byteLookupCode "94105-1234" ∧
        (NewGeo zipTable ⟨[("k1", designeeAt "94105-1234")]⟩).g.map
            (fun g => mapGet g.latlong "k1") =
          some (zipTable (byteLookupCode "94105-1234"))) ∧
      (shortZipCode (designeeAt "94105-1234") = goString (specLookupCode "94105-1234") ∧
        goString (specLookupCode "94105-1234") = specLookupCode "94105-1234") ∧
      (shortZipCode (designeeAt "940") = goString (specLookupCode "940") ∧
        goString (specLookupCode "940") = specLookupCode "940") :=
  ⟨by decide,
    ⟨(lookup_code_bytes zipTable "k1" (designeeAt "94105-1234") "94105-1234" (by decide)).1,
      (lookup_code_bytes zipTable "k1" (designeeAt "94105-1234") "94105-1234" (by decide)).2.1⟩,
    (lookup_code_bytes zipTable "k1" (designeeAt "94105-1234") "94105-1234" (by decide)).2.2
      (by decide),
    (lookup_code_bytes zipTable "k2" (designeeAt "940") "940" (by decide)).2.2 (by decide)⟩

end GeoIndex

/-! ## Sorting -/

section Sorting

variable {α : Type}

theorem insertBack_perm (less : α → α → Bool) (x : α) (l : List α) :
    (insertBack less x l).Perm (x :: l) := by
  induction l with
  | nil => exact List.Perm.refl _
  | cons y rest ih =>
    unfold insertBack
    split_ifs
    · exact ((ih.cons y).trans (List.Perm.swap x y rest))
    · exact List.Perm.refl _

theorem foldl_insertBack_perm (less : α → α → Bool) (data acc : List α) :
    (data.foldl (fun sortedRev x => insertBack less x sortedRev) acc).Perm (acc ++ data) := by
  induction data generalizing acc with
  | nil => simp
  | cons x rest ih =>
    simp only [List.foldl_cons]
    refine (ih _).trans ?_
    refine ((insertBack_perm less x acc).append_right rest).trans ?_
    simpa using (@List.perm_middle _ x acc rest).symm

theorem sortSlice_perm (less : α → α → Bool) (data : List α) :
    (sortSlice less data).Perm data := by
  unfold sortSlice
  refine (List.reverse_perm _).trans ?_
  simpa using foldl_insertBack_perm less data []

theorem insertBack_pairwise (less : α → α → Bool)
    (hasymm : ∀ a b, less a b = true → less b a = false)
    (htrans : ∀ a b c, less a b = false → less b c = false → less a c = false)
    (x : α) (l : List α) (h : l.Pairwise (fun a b => less a b = false)) :
    (insertBack less x l).Pairwise (fun a b => less a b = false) := by
  induction l with
  | nil => simp [insertBack]
  | cons y rest ih =>
    rw [List.pairwise_cons] at h
    unfold insertBack
    split_ifs with hxy
    · rw [List.pairwise_cons]
      refine ⟨fun z hz => ?_, ih h.2⟩
      have hz2 := (insertBack_perm less x rest).mem_iff.mp hz
      rw [List.mem_cons] at hz2
      rcases hz2 with rfl | hzr
      · exact hasymm _ _ hxy
      · exact h.1 z hzr
    · have hxy2 : less x y = false := by simpa using hxy
      rw [List.pairwise_cons]
      refine ⟨fun z hz => ?_, List.pairwise_cons.mpr h⟩
      rw [List.mem_cons] at hz
      rcases hz with rfl | hzr
      · exact hxy2
      · exact htrans _ _ _ hxy2 (h.1 z hzr)

theorem sortSlice_sorted (less : α → α → Bool)
    (hasymm : ∀ a b, less a b = true → less b a = false)
    (htrans : ∀ a b c, less a b = false → less b c = false → less a c = false)
    (data : List α) :
    (sortSlice less data).Pairwise (fun a b => less b a = false) := by
  unfold sortSlice
  rw [List.pairwise_reverse]
  have key : ∀ (data acc : List α), acc.Pairwise (fun a b => less a b = false) →
      (data.foldl (fun sortedRev x => insertBack less x sortedRev) acc).Pairwise
        (fun a b => less a b = false) := by
    intro data
    induction data with
    | nil => intro acc h; exact h
    | cons x rest ih =>
      intro acc h
      exact ih _ (insertBack_pairwise less hasymm htrans x acc h)
  exact key data [] List.Pairwise.nil

end Sorting

/-! ## Distance ranker -/

section Ranker

variable {F : Type}

theorem rankLoop_ok (vincenty : Vincenty F) (originLoc : Location F)
    (entries : List (String × Location F)) (all : List (DesigneeIDWithDistance F))
    (h : ∀ e ∈ entries, DistOk vincenty originLoc e) :
    rankLoop vincenty originLoc entries all =
      (all ++ entries.map (pairOf vincenty originLoc), none) := by
  induction entries generalizing all with
  | nil => simp [rankLoop]
  | cons e rest ih =>
    obtain ⟨id, loc⟩ := e
    have he : DistOk vincenty originLoc (id, loc) := h _ (List.mem_cons_self _ _)
    unfold DistOk at he
    simp only at he
    unfold rankLoop
    cases hv : vincenty ⟨originLoc.Latitude, originLoc.Longitude⟩ ⟨loc.Latitude, loc.Longitude⟩ with
    | mk m r =>
      obtain ⟨km, err⟩ := r
      rw [hv] at he
      simp only at he
      subst he
      simp only
      rw [ih _ (fun e2 he2 => h e2 (List.mem_cons_of_mem _ he2))]
      simp [pairOf, milesTo, hv]

theorem rankLoop_fail (vincenty : Vincenty F) (originLoc : Location F)
    (entries : List (String × Location F)) (all : List (DesigneeIDWithDistance F))
    (h : ¬ ∀ e ∈ entries, DistOk vincenty originLoc e) :
    ∃ id c, rankLoop vincenty originLoc entries all = ([], some (.vincenty id c)) := by
  induction entries generalizing all with
  | nil => exact absurd (by simp) h
  | cons e rest ih =>
    obtain ⟨id, loc⟩ := e
    unfold rankLoop
    cases hv : vincenty ⟨originLoc.Latitude, originLoc.Longitude⟩ ⟨loc.Latitude, loc.Longitude⟩ with
    | mk m r =>
      obtain ⟨km, err⟩ := r
      cases err with
      | some c => exact ⟨id, c, rfl⟩
      | none =>
        simp only
        apply ih
        intro hall
        apply h
        intro e2 he2
        rw [List.mem_cons] at he2
        rcases he2 with rfl | he2
        · simp [DistOk, hv]
        · exact hall e2 he2

theorem rank_ok [LT F] [DecidableRel (fun a b : F => a < b)]
    (sort : (DesigneeIDWithDistance F → DesigneeIDWithDistance F → Bool) →
      List (DesigneeIDWithDistance F) → List (DesigneeIDWithDistance F))
    (zipCodes : String → Option (Location F)) (vincenty : Vincenty F)
    (g : Geo F) (zipCode : String) (originLoc : Location F)
    (horigin : zipCodes zipCode = some originLoc)
    (h : ∀ e ∈ g.latlong, DistOk vincenty originLoc e) :
    RankDesigneesByDistanceWith sort zipCodes vincenty g zipCode =
      ⟨sort (fun a b => decide (a.miles < b.miles)) (g.latlong.map (pairOf vincenty originLoc)),
        none, g⟩ := by
  unfold RankDesigneesByDistanceWith
  simp only [horigin, rankLoop_ok vincenty originLoc g.latlong [] h, List.nil_append]

theorem rank_fail [LT F] [DecidableRel (fun a b : F => a < b)]
    (sort : (DesigneeIDWithDistance F → DesigneeIDWithDistance F → Bool) →
      List (DesigneeIDWithDistance F) → List (DesigneeIDWithDistance F))
    (zipCodes : String → Option (Location F)) (vincenty : Vincenty F)
    (g : Geo F) (zipCode : String) (originLoc : Location F)
    (horigin : zipCodes zipCode = some originLoc)
    (h : ¬ ∀ e ∈ g.latlong, DistOk vincenty originLoc e) :
    ∃ id c, RankDesigneesByDistanceWith sort zipCodes vincenty g zipCode =
      ⟨[], some (.vincenty id c), g⟩ := by
  obtain ⟨id, c, hl⟩ := rankLoop_fail vincenty originLoc g.latlong [] h
  refine ⟨id, c, ?_⟩
  unfold RankDesigneesByDistanceWith
  simp only [horigin, hl]

theorem rank_absent [LT F] [DecidableRel (fun a b : F => a < b)]
    (sort : (DesigneeIDWithDistance F → DesigneeIDWithDistance F → Bool) →
      List (DesigneeIDWithDistance F) → List (DesigneeIDWithDistance F))
    (zipCodes : String → Option (Location F)) (vincenty : Vincenty F)
    (g : Geo F) (zipCode : String) (horigin : zipCodes zipCode = none) :
    RankDesigneesByDistanceWith sort zipCodes vincenty g zipCode =
      ⟨[], some (.originNotFound zipCode), g⟩ := by
  unfold RankDesigneesByDistanceWith
  simp only [horigin]

/-- C4: when the origin postal code is in the coordinate table and every
distance computation succeeds, `RankDesigneesByDistance` returns no error and
a slice that is a permutation of the pairs of key and distance of all index
entries, one per entry, in which every element's distance is at most that of
every later element. -/
theorem rank_sorted_permutation [LinearOrder F]
    (zipCodes : String → Option (Location F)) (vincenty : Vincenty F)
    (g : Geo F) (zipCode : String) (originLoc : Location F)
    (horigin : zipCodes zipCode = some originLoc)
    (hdist : ∀ e ∈ g.latlong,
      (vincenty ⟨originLoc.Latitude, originLoc.Longitude⟩
        ⟨e.2.Latitude, e.2.Longitude⟩).2.2 = none) :
    (RankDesigneesByDistance zipCodes vincenty g zipCode).err = none ∧
      (RankDesigneesByDistance zipCodes vincenty g zipCode).ranked.Perm
        (g.latlong.map (fun e => ⟨e.1, milesTo vincenty originLoc e.2⟩)) ∧
      (RankDesigneesByDistance zipCodes vincenty g zipCode).ranked.length = g.latlong.length ∧
      (RankDesigneesByDistance zipCodes vincenty g zipCode).ranked.Pairwise
        (fun a b => a.miles ≤ b.miles) := by
  have heq := rank_ok sortSlice zipCodes vincenty g zipCode originLoc horigin hdist
  unfold RankDesigneesByDistance
  rw [heq]
  have hperm := sortSlice_perm (fun a b : DesigneeIDWithDistance F => decide (a.miles < b.miles))
    (g.latlong.map (pairOf vincenty originLoc))
  refine ⟨rfl, hperm, ?_, ?_⟩
  · simpa using hperm.length_eq
  · have hs := sortSlice_sorted
      (fun a b : DesigneeIDWithDistance F => decide (a.miles < b.miles))
      (by
        intro a b hab
        simp only [decide_eq_true_eq, decide_eq_false_iff_not, not_lt] at hab ⊢
        exact le_of_lt hab)
      (by
        intro a b c hab hbc
        simp only [decide_eq_false_iff_not, not_lt] at hab hbc ⊢
        exact le_trans hbc hab)
      (g.latlong.map (pairOf vincenty originLoc))
    refine hs.imp ?_
    intro a b hab
    simpa using hab

/-- Witness of C4: index entries at 10, 5 and 20 miles from postal code 94105
come back in the order 5, 10, 20. -/
theorem rank_sorted_permutation_witness :
    (RankDesigneesByDistance zipTable gridDistance threeEntries "94105").ranked =
        [⟨"b", 5⟩, ⟨"a", 10⟩, ⟨"c", 20⟩] ∧
      ((RankDesigneesByDistance zipTable gridDistance threeEntries "94105").err = none ∧
        (RankDesigneesByDistance zipTable gridDistance threeEntries "94105").ranked.Perm
          (threeEntries.latlong.map (fun e => ⟨e.1, milesTo gridDistance ⟨37, -122⟩ e.2⟩)) ∧
        (RankDesigneesByDistance zipTable gridDistance threeEntries "94105").ranked.length =
          threeEntries.latlong.length ∧
        (RankDesigneesByDistance zipTable gridDistance threeEntries "94105").ranked.Pairwise
          (fun a b => a.miles ≤ b.miles)) :=
  ⟨by decide,
    rank_sorted_permutation zipTable gridDistance threeEntries "94105" ⟨37, -122⟩
      (by decide) (by decide)⟩

/-- C7: for an origin postal code that is not in the coordinate table,
`RankDesigneesByDistance` returns a nil slice and the origin-not-found error;
for an origin that is in the table it never returns that error; and whenever
it returns an error the slice is nil. -/
theorem rank_unknown_origin [LinearOrder F]
    (zipCodes : String → Option (Location F)) (vincenty : Vincenty F)
    (g : Geo F) (zipCode : String) :
    (zipCodes zipCode = none →
        (RankDesigneesByDistance zipCodes vincenty g zipCode).ranked = [] ∧
        (RankDesigneesByDistance zipCodes vincenty g zipCode).err =
          some (.originNotFound zipCode)) ∧
      (zipCodes zipCode ≠ none →
        (RankDesigneesByDistance zipCodes vincenty g zipCode).err ≠
          some (.originNotFound zipCode)) ∧
      ((RankDesigneesByDistance zipCodes vincenty g zipCode).err ≠ none →
        (RankDesigneesByDistance zipCodes vincenty g zipCode).ranked = []) := by
  unfold RankDesigneesByDistance
  cases horigin : zipCodes zipCode with
  | none =>
    rw [rank_absent sortSlice zipCodes vincenty g zipCode horigin]
    exact ⟨fun _ => ⟨rfl, rfl⟩, fun h => absurd rfl h, fun _ => rfl⟩
  | some originLoc =>
    by_cases hall : ∀ e ∈ g.latlong, DistOk vincenty originLoc e
    · rw [rank_ok sortSlice zipCodes vincenty g zipCode originLoc horigin hall]
      refine ⟨fun h => by simp at h, fun _ => by simp, fun h => absurd rfl h⟩
    · obtain ⟨id, c, heq⟩ := rank_fail sortSlice zipCodes vincenty g zipCode originLoc horigin hall
      rw [heq]
      refine ⟨fun h => by simp at h, fun _ => by simp, fun _ => rfl⟩

/-- Witness of C7: postal code 00000 is not in the table, 94105 is; the
distance to the second entry of `southEntries` cannot be computed. -/
theorem rank_unknown_origin_witness :
    ((RankDesigneesByDistance zipTable gridDistance threeEntries "00000").ranked = [] ∧
        (RankDesigneesByDistance zipTable gridDistance threeEntries "00000").err =
          some (.originNotFound "00000")) ∧
      (RankDesigneesByDistance zipTable gridDistance threeEntries "94105").err ≠
        some (.originNotFound "94105") ∧
      (RankDesigneesByDistance zipTable gridDistance southEntries "94105").ranked = [] :=
  ⟨(rank_unknown_origin zipTable gridDistance threeEntries "00000").1 (by decide),
    (rank_unknown_origin zipTable gridDistance threeEntries "94105").2.1 (by decide),
    (rank_unknown_origin zipTable gridDistance southEntries "94105").2.2 (by decide)⟩

/-- C10: for one coordinate table, distance library and origin, two calls of
the ranker on the same index return the same multiset of pairs of key and
distance and agree on whether they fail, whatever the order in which each
call enumerates the index and whatever permuting routine each call sorts
with; and each call leaves its receiver as it was. -/
theorem rank_multiset_stable [LinearOrder F]
    (sort1 sort2 : (DesigneeIDWithDistance F → DesigneeIDWithDistance F → Bool) →
      List (DesigneeIDWithDistance F) → List (DesigneeIDWithDistance F))
    (hsort1 : ∀ less l, (sort1 less l).Perm l) (hsort2 : ∀ less l, (sort2 less l).Perm l)
    (zipCodes : String → Option (Location F)) (vincenty : Vincenty F)
    (g1 g2 : Geo F) (hperm : g1.latlong.Perm g2.latlong) (zipCode : String) :
    ((RankDesigneesByDistanceWith sort1 zipCodes vincenty g1 zipCode).ranked :
        Multiset (DesigneeIDWithDistance F)) =
        (RankDesigneesByDistanceWith sort2 zipCodes vincenty g2 zipCode).ranked ∧
      ((RankDesigneesByDistanceWith sort1 zipCodes vincenty g1 zipCode).err = none ↔
        (RankDesigneesByDistanceWith sort2 zipCodes vincenty g2 zipCode).err = none) ∧
      (RankDesigneesByDistanceWith sort1 zipCodes vincenty g1 zipCode).recv = g1 ∧
      (RankDesigneesByDistanceWith sort2 zipCodes vincenty g2 zipCode).recv = g2 := by
  cases horigin : zipCodes zipCode with
  | none =>
    rw [rank_absent sort1 zipCodes vincenty g1 zipCode horigin,
      rank_absent sort2 zipCodes vincenty g2 zipCode horigin]
    exact ⟨rfl, Iff.rfl, rfl, rfl⟩
  | some originLoc =>
    by_cases hall : ∀ e ∈ g1.latlong, DistOk vincenty originLoc e
    · have hall2 : ∀ e ∈ g2.latlong, DistOk vincenty originLoc e :=
        fun e he => hall e (hperm.mem_iff.mpr he)
      rw [rank_ok sort1 zipCodes vincenty g1 zipCode originLoc horigin hall,
        rank_ok sort2 zipCodes vincenty g2 zipCode originLoc horigin hall2]
      refine ⟨?_, Iff.rfl, rfl, rfl⟩
      rw [Multiset.coe_eq_coe]
      exact ((hsort1 _ _).trans (hperm.map _)).trans (hsort2 _ _).symm
    · have hall2 : ¬ ∀ e ∈ g2.latlong, DistOk vincenty originLoc e :=
        fun h2 => hall (fun e he => h2 e (hperm.mem_iff.mp he))
      obtain ⟨id1, c1, heq1⟩ :=
        rank_fail sort1 zipCodes vincenty g1 zipCode originLoc horigin hall
      obtain ⟨id2, c2, heq2⟩ :=
        rank_fail sort2 zipCodes vincenty g2 zipCode originLoc horigin hall2
      rw [heq1, heq2]
      exact ⟨rfl, by simp, rfl, rfl⟩

/-- Witness of C10: two records at the same distance, enumerated in the two
possible orders and sorted by two routines that place ties differently. -/
theorem rank_multiset_stable_witness :
    (RankDesigneesByDistanceWith sortSlice zipTable gridDistance tiedEntries "94105").ranked ≠
        (RankDesigneesByDistanceWith sortSliceReversed zipTable gridDistance
          tiedEntries "94105").ranked ∧
      (((RankDesigneesByDistanceWith sortSlice zipTable gridDistance
            tiedEntries "94105").ranked : Multiset (DesigneeIDWithDistance Int)) =
          (RankDesigneesByDistanceWith sortSliceReversed zipTable gridDistance
            tiedEntriesSwapped "94105").ranked ∧
        ((RankDesigneesByDistanceWith sortSlice zipTable gridDistance
            tiedEntries "94105").err = none ↔
          (RankDesigneesByDistanceWith sortSliceReversed zipTable gridDistance
            tiedEntriesSwapped "94105").err = none) ∧
        (RankDesigneesByDistanceWith sortSlice zipTable gridDistance
          tiedEntries "94105").recv = tiedEntries ∧
        (RankDesigneesByDistanceWith sortSliceReversed zipTable gridDistance
          tiedEntriesSwapped "94105").recv = tiedEntriesSwapped) :=
  ⟨by decide,
    rank_multiset_stable sortSlice sortSliceReversed sortSlice_perm
      (fun less l => (sortSlice_perm less l.reverse).trans (List.reverse_perm l))
      zipTable gridDistance tiedEntries tiedEntriesSwapped (by decide) "94105"⟩

end Ranker

end DpeFinder
